import Mathlib

/-!
Verification of the server process registry and lifecycle manager of
`mcp-node` (`src/tools/npm-tools.ts`, `registerServerTools`), as a shallow
embedding: the pure data manipulations (log buffering, log filtering,
registry bookkeeping, outcome selection) are translated into executable
Lean definitions, and the asynchronous timer/exit-event behaviour into a
small-step transition system.  External collaborators (filesystem access,
permission prompts, nvm resolution, `spawn`, the child process itself) are
modelled as explicit parameters recording the result each collaborator
returns.
-/

namespace McpNode

/-! ## Log buffer (start-node-server stdout/stderr data handlers) -/

/-- `const maxLogs = 1000` — the log storage limit. -/
def maxLogs : Nat := 1000

/-- One `data` callback body: `logs.push(entry); if (logs.length > maxLogs) logs.shift()`. -/
def pushLog (logs : List String) (entry : String) : List String :=
  let logs2 := logs ++ [entry]
  if maxLogs < logs2.length then logs2.tail else logs2

/-- Which stream a chunk arrived on. -/
inductive StreamTag where
  | stdoutTag
  | stderrTag
deriving DecidableEq

/-- How a chunk is formatted before being pushed:
`[stdout] ${output}` resp. `[stderr] ${output}`. -/
def formatChunk (c : StreamTag × String) : String :=
  match c.1 with
  | .stdoutTag => "[stdout] " ++ c.2
  | .stderrTag => "[stderr] " ++ c.2

/-- The `stdout`/`stderr` `data` handlers, applied to one tagged chunk. -/
def onData (logs : List String) (c : StreamTag × String) : List String :=
  pushLog logs (formatChunk c)

/-- The log buffer produced by a sequence of data callbacks, starting from
the empty `logs` array initialised at spawn time. -/
def runStream (chunks : List (StreamTag × String)) : List String :=
  chunks.foldl onData []

/-- The last `n` elements of a list, in order. -/
def lastN (n : Nat) (l : List α) : List α := l.drop (l.length - n)

/-! ## Registry (`runningServers` map) and server records -/

/-- The fields of one entry of the `runningServers` map (the spawned process
handle itself is modelled separately, via the stop/exit parameters). -/
structure ServerInfo where
  name : String
  command : String
  pid : Nat
  startTimeMs : Nat
  logs : List String
  exitCode : Option Int
deriving DecidableEq

/-- The `runningServers` map, as an association list with JS `Map.set`
update semantics. -/
abbrev Registry := List (String × ServerInfo)

/-- `runningServers.get(id)`. -/
def regGet : Registry → String → Option ServerInfo
  | [], _ => none
  | (k, v) :: t, id => if k = id then some v else regGet t id

/-- `runningServers.has(id)`. -/
def regHas (reg : Registry) (id : String) : Bool := (regGet reg id).isSome

/-- `runningServers.set(id, v)`: replace the existing binding, else append. -/
def regSet : Registry → String → ServerInfo → Registry
  | [], id, v => [(id, v)]
  | (k, w) :: t, id, v => if k = id then (id, v) :: t else (k, w) :: regSet t id v

/-- `runningServers.size`. -/
def regSize (reg : Registry) : Nat := reg.length

/-! ## String helpers used by get-server-logs -/

/-- `s.toLowerCase()` (ASCII case folding, as exercised by the tool). -/
def lowerStr (s : String) : String := String.mk (s.data.map Char.toLower)

/-- `log.startsWith(p)`. -/
def strStartsWith (s p : String) : Bool := p.data.isPrefixOf s.data

/-- Occurrence of `needle` as a contiguous run inside `hay`. -/
def hasInfix (needle : List Char) : List Char → Bool
  | [] => needle.isEmpty
  | c :: t => needle.isPrefixOf (c :: t) || hasInfix needle t

/-- `s.includes(sub)`. -/
def strIncludes (s sub : String) : Bool := hasInfix sub.data s.data

/-! ## start-node-server -/

/-- Accumulate the path component after the last separator. -/
def basenameChars : List Char → List Char → List Char
  | [], acc => acc
  | c :: rest, acc =>
    if c = '/' then basenameChars rest [] else basenameChars rest (acc ++ [c])

/-- `path.basename` (for paths without a trailing separator): the component
after the last `/`. -/
def basename (p : String) : String := String.mk (basenameChars p.data [])

/-- The displayed command string:
`node ${nodeArgsString}${absPath}${argsString}`. -/
def buildCommand (nodeArgs : List String) (absPath : String) (args : List String) : String :=
  let nodeArgsString := if nodeArgs.length > 0 then String.intercalate " " nodeArgs ++ " " else ""
  let argsString := if args.length > 0 then " " ++ String.intercalate " " args else ""
  "node " ++ nodeArgsString ++ absPath ++ argsString

/-- The handle `spawn` returns.  `pid` is absent when the OS-level spawn
failed and the failure will only be delivered through a later asynchronous
event; the tool reads it as `serverProcess.pid || 0`. -/
structure SpawnHandle where
  pid : Option Nat
deriving DecidableEq

deriving instance DecidableEq for Except

/-- The results returned by the external collaborators during one
start-node-server call: `fs.access`, `askPermission`, the nvm `which node`
subprocess, and `spawn` itself (which either throws or returns a handle). -/
structure StartEnv where
  accessOk : Bool
  permitted : Bool
  selectedNodeVersion : Option String
  nvmWhichNode : Except String String
  spawnResult : Except String SpawnHandle
deriving DecidableEq

/-- The outcome of one start-node-server call. -/
inductive StartResult where
  | scriptMissing
  | permissionDenied
  | nodeBinError (msg : String)
  | spawnError (msg : String)
  | started (id : String) (pid : Nat)
deriving DecidableEq

/-- Whether the tool response carries `isError: true`. -/
def StartResult.isErr : StartResult → Bool
  | .started _ _ => false
  | _ => true

/-- The start-node-server tool body: validate the script path, ask for
permission, optionally resolve the interpreter via nvm, spawn, then insert
the record into `runningServers` and report success.  `newId` is the value
`generateServerId()` produced; `nowMs` the spawn timestamp. -/
def startNodeServer (env : StartEnv) (reg : Registry) (newId : String) (nowMs : Nat)
    (scriptPath : String) (serverName : Option String)
    (nodeArgs args : List String) : StartResult × Registry :=
  if env.accessOk = false then (.scriptMissing, reg)
  else
    let displayName := serverName.getD (basename scriptPath)
    if env.permitted = false then (.permissionDenied, reg)
    else
      let nvmStep : Except String Unit :=
        match env.selectedNodeVersion with
        | some _ =>
          match env.nvmWhichNode with
          | .error e => .error e
          | .ok _ => .ok ()
        | none => .ok ()
      match nvmStep with
      | .error e => (.nodeBinError e, reg)
      | .ok _ =>
        match env.spawnResult with
        | .error e => (.spawnError e, reg)
        | .ok h =>
          let info : ServerInfo :=
            { name := displayName
              command := buildCommand nodeArgs scriptPath args
              pid := h.pid.getD 0
              startTimeMs := nowMs
              logs := []
              exitCode := none }
          (.started newId (h.pid.getD 0), regSet reg newId info)

/-! ## stop-server -/

/-- The two signals the tool can send. -/
inductive Signal where
  | sigterm
  | sigkill
deriving DecidableEq

/-- The results returned by the external collaborators during one
stop-server call: the initial `askPermission`, whether (and with which
code) the process exit event fires during the 5-second wait, and the
escalation `askPermission`. -/
structure StopEnv where
  permitted : Bool
  exitWithinTimeout : Option (Option Int)
  forcePermitted : Bool
deriving DecidableEq

/-- The outcome of one stop-server call. -/
inductive StopResult where
  | notFound
  | alreadyExited (code : Int)
  | permissionDenied
  | forciblyTerminated
  | didNotExitRetryWithForce
  | unresponsiveAfterKill
  | stopped (code : Int)
deriving DecidableEq

/-- Per-record body of the stop-server tool, given a record that is in the
registry.  Returns the outcome, the record state afterwards, the signals
sent to the process in order, and whether the retention-removal
`setTimeout` at the end of the tool body was scheduled. -/
def stopServer (env : StopEnv) (info : ServerInfo) (force : Bool) :
    StopResult × ServerInfo × List Signal × Bool :=
  match info.exitCode with
  | some c => (.alreadyExited c, info, [], false)
  | none =>
    if env.permitted = false then (.permissionDenied, info, [], false)
    else
      let sig1 : Signal := if force then .sigkill else .sigterm
      let info2 : ServerInfo :=
        match env.exitWithinTimeout with
        | some c => { info with exitCode := c }
        | none => info
      let resolved : Option Int :=
        match env.exitWithinTimeout with
        | some c => c
        | none => none
      match resolved with
      | none =>
        if force = false then
          if env.forcePermitted then (.forciblyTerminated, info2, [sig1, .sigkill], false)
          else (.didNotExitRetryWithForce, info2, [sig1], false)
        else (.unresponsiveAfterKill, info2, [sig1], false)
      | some c => (.stopped c, info2, [sig1], true)

/-- The stop-server tool: look the id up in `runningServers`, then run the
per-record body; the record object is mutated in place, never deleted by
the call itself. -/
def stopServerTool (env : StopEnv) (reg : Registry) (serverId : String) (force : Bool) :
    StopResult × Registry × List Signal × Bool :=
  match regGet reg serverId with
  | none => (.notFound, reg, [], false)
  | some info =>
    let o := stopServer env info force
    (o.1, regSet reg serverId o.2.1, o.2.2.1, o.2.2.2)

/-! ## list-servers -/

/-- The outcome of one list-servers call. -/
inductive ListResult where
  | noServers
  | serverNotFound
  | detail (id : String)
  | listing (count : Nat)
deriving DecidableEq

/-- Whether the list-servers response carries `isError: true`. -/
def ListResult.isErr : ListResult → Bool
  | .serverNotFound => true
  | _ => false

/-- The list-servers tool body: the `runningServers.size === 0` check runs
before the optional `serverId` lookup. -/
def listServersTool (reg : Registry) (serverId : Option String) : ListResult :=
  if regSize reg = 0 then .noServers
  else
    match serverId with
    | some id =>
      match regGet reg id with
      | none => .serverNotFound
      | some _ => .detail id
    | none => .listing (regSize reg)

/-! ## get-server-logs -/

/-- The filter callback of get-server-logs, over one stored log line. -/
def logMatches (stdoutB stderrB : Bool) (filter : Option String) (log : String) : Bool :=
  if stdoutB = false && strStartsWith log "[stdout]" then false
  else if stderrB = false && strStartsWith log "[stderr]" then false
  else
    match filter with
    | some f => strIncludes (lowerStr log) (lowerStr f)
    | none => true

/-- JS `Array.prototype.slice(start)`: a negative start counts from the
end, clamped at 0; a non-negative start is clamped at the length. -/
def jsSliceFrom (l : List α) (start : Int) : List α :=
  let s : Int := if start < 0 then max ((l.length : Int) + start) 0 else min start (l.length : Int)
  l.drop s.toNat

/-- The log lines get-server-logs computes:
`serverInfo.logs.filter(...).slice(-lines)`. -/
def getServerLogsList (logs : List String) (lines : Nat) (filter : Option String)
    (stdoutB stderrB : Bool) : List String :=
  jsSliceFrom (logs.filter (logMatches stdoutB stderrB filter)) (-(lines : Int))

/-- The outcome of one get-server-logs call. -/
inductive LogsResult where
  | notFound
  | noLogs
  | shown (entries : List String)
deriving DecidableEq

/-- Whether the get-server-logs response carries `isError: true`: only the
unknown-id case does; an empty filtered result is a normal response. -/
def LogsResult.isErr : LogsResult → Bool
  | .notFound => true
  | _ => false

/-- The get-server-logs tool body. -/
def getServerLogsTool (reg : Registry) (serverId : String) (lines : Nat)
    (filter : Option String) (stdoutB stderrB : Bool) : LogsResult :=
  match regGet reg serverId with
  | none => .notFound
  | some info =>
    let fl := getServerLogsList info.logs lines filter stdoutB stderrB
    if fl.isEmpty then .noLogs else .shown fl

/-! ## Exit events, retention timers and removal

The asynchronous behaviour around one record: the permanent `exit` handler
installed by start-node-server (set `exitCode`, schedule a
`runningServers.delete` after one hour), and one interleaved stop-server
call (send a signal, await the exit event for up to five seconds, schedule
a second `runningServers.delete` after one hour when the await resolved
with a non-null code).  Time is in milliseconds. -/

/-- The retention delay before an exited record is deleted: `3600000`. -/
def retentionMs : Nat := 3600000

/-- The asynchronous state of one record.  `exitCodeSetAt` records when the
exit event assigned `exitCode`; `timers` the pending removal timers by fire
time; `schedCount` how many removal timers were ever scheduled;
`stopActive` that a stop-server call is awaiting its `exitPromise`;
`stopResolved` the value that promise resolved with. -/
structure TState where
  time : Nat
  present : Bool
  exitCode : Option Int
  exited : Bool
  exitCodeSetAt : Option Nat
  timers : List Nat
  removedAt : Option Nat
  stopActive : Bool
  stopStarted : Bool
  stopResolved : Option (Option Int)
  schedCount : Nat
deriving DecidableEq

/-- The state right after start-node-server inserted the record. -/
def initState (t0 : Nat) : TState :=
  { time := t0, present := true, exitCode := none, exited := false
    exitCodeSetAt := none, timers := [], removedAt := none
    stopActive := false, stopStarted := false, stopResolved := none
    schedCount := 0 }

/-- One asynchronous step on a record's state.  Each constructor embeds one
piece of `registerServerTools`:
`exitP`/`exitA` the permanent exit handler (which checks
`runningServers.has(serverId)`) together with the stop call's one-time exit
listener; `stopBegin` a stop call that passed the checks and sent its
signal; `stopTimeoutFire` the 5-second timeout removing the listener;
`stopFinishExited` the stop call resuming after a non-null exit code and
scheduling the retention `setTimeout`; `stopFinishNull` the stop call
resuming on the escalation paths (no retention timer); `fire` a pending
retention timer deleting the record; `tick` the passage of time. -/
inductive Step : TState → TState → Prop where
  | tick (s : TState) (d : Nat) :
      Step s { s with time := s.time + d }
  | exitP (s : TState) (code : Option Int) (h : s.exited = false) (hp : s.present = true) :
      Step s { s with
        exited := true
        exitCode := code
        exitCodeSetAt := some s.time
        timers := (s.time + retentionMs) :: s.timers
        schedCount := s.schedCount + 1
        stopResolved := if s.stopActive then some code else s.stopResolved }
  | exitA (s : TState) (code : Option Int) (h : s.exited = false) (hp : s.present = false) :
      Step s { s with
        exited := true
        exitCode := if s.stopActive then code else s.exitCode
        exitCodeSetAt := if s.stopActive then some s.time else s.exitCodeSetAt
        stopResolved := if s.stopActive then some code else s.stopResolved }
  | stopBegin (s : TState) (h1 : s.present = true) (h2 : s.exitCode = none)
      (h3 : s.stopStarted = false) :
      Step s { s with stopActive := true, stopStarted := true }
  | stopTimeoutFire (s : TState) (h1 : s.stopActive = true) (h2 : s.stopResolved = none) :
      Step s { s with stopActive := false }
  | stopFinishExited (s : TState) (c : Int) (h1 : s.stopActive = true)
      (h2 : s.stopResolved = some (some c)) :
      Step s { s with
        stopActive := false
        timers := (s.time + retentionMs) :: s.timers
        schedCount := s.schedCount + 1 }
  | stopFinishNull (s : TState) (h1 : s.stopActive = true) (h2 : s.stopResolved = some none) :
      Step s { s with stopActive := false }
  | fire (s : TState) (t : Nat) (h1 : t ∈ s.timers) (h2 : t ≤ s.time) :
      Step s { s with
        present := false
        removedAt := some s.time
        timers := s.timers.erase t }

/-- The states an inserted record can reach. -/
def Reachable (t0 : Nat) (s : TState) : Prop :=
  Relation.ReflTransGen Step (initState t0) s

/-- The inductive invariant of the record's asynchronous state. -/
structure Inv (s : TState) : Prop where
  set_le_time : ∀ te, s.exitCodeSetAt = some te → te ≤ s.time
  not_exited : s.exited = false →
    s.timers = [] ∧ s.stopResolved = none ∧ s.exitCodeSetAt = none ∧
    s.schedCount = 0 ∧ s.removedAt = none
  timers_ok : ∀ t ∈ s.timers, ∃ te, s.exitCodeSetAt = some te ∧ te + retentionMs ≤ t
  resolved_ok : s.stopResolved ≠ none → s.exitCodeSetAt ≠ none
  removed_ok : ∀ r, s.removedAt = some r →
    s.exited = true ∧ ∃ te, s.exitCodeSetAt = some te ∧ te + retentionMs ≤ r
  active_started : s.stopActive = true → s.stopStarted = true
  sched_le : s.schedCount ≤
    (if s.exited then 1 else 0) + (if s.stopStarted && !s.stopActive then 1 else 0)

theorem inv_init (t0 : Nat) : Inv (initState t0) := by
  refine ⟨?_, ?_, ?_, ?_, ?_, ?_, ?_⟩ <;> simp [initState]

theorem inv_step {s s' : TState} (h : Step s s') (hi : Inv s) : Inv s' := by
  obtain ⟨mono, ne, tok, rok, remok, ast, sle⟩ := hi
  cases h with
  | tick d =>
    refine ⟨?_, ?_, ?_, ?_, ?_, ?_, ?_⟩ <;> dsimp only
    · intro te hte
      exact le_trans (mono te hte) (Nat.le_add_right _ _)
    · exact ne
    · exact tok
    · exact rok
    · exact remok
    · exact ast
    · exact sle
  | exitP code h hp =>
    refine ⟨?_, ?_, ?_, ?_, ?_, ?_, ?_⟩ <;> dsimp only
    · intro te hte
      rw [Option.some_inj] at hte
      omega
    · intro hq
      simp at hq
    · intro t ht
      rcases List.mem_cons.mp ht with rfl | ht2
      · exact ⟨s.time, rfl, le_refl _⟩
      · rw [(ne h).1] at ht2
        simp at ht2
    · intro _
      simp
    · intro r hr
      rw [(ne h).2.2.2.2] at hr
      simp at hr
    · exact ast
    · have h0 := (ne h).2.2.2.1
      by_cases hb : (s.stopStarted && !s.stopActive) = true <;> simp [h0, hb]
  | exitA code h hp =>
    refine ⟨?_, ?_, ?_, ?_, ?_, ?_, ?_⟩ <;> dsimp only
    · intro te hte
      by_cases hsa : s.stopActive = true
      · rw [if_pos hsa, Option.some_inj] at hte
        omega
      · rw [if_neg hsa] at hte
        exact mono te hte
    · intro hq
      simp at hq
    · intro t ht
      rw [(ne h).1] at ht
      simp at ht
    · intro hq
      by_cases hsa : s.stopActive = true
      · rw [if_pos hsa]
        simp
      · rw [if_neg hsa] at hq ⊢
        exact rok hq
    · intro r hr
      rw [(ne h).2.2.2.2] at hr
      simp at hr
    · exact ast
    · rw [(ne h).2.2.2.1]
      exact Nat.zero_le _
  | stopBegin h1 h2 h3 =>
    refine ⟨?_, ?_, ?_, ?_, ?_, ?_, ?_⟩ <;> dsimp only
    · exact mono
    · exact ne
    · exact tok
    · exact rok
    · exact remok
    · intro _
      rfl
    · simp [h3] at sle
      simpa using sle
  | stopTimeoutFire h1 h2 =>
    refine ⟨?_, ?_, ?_, ?_, ?_, ?_, ?_⟩ <;> dsimp only
    · exact mono
    · exact ne
    · exact tok
    · exact rok
    · exact remok
    · intro hq
      simp at hq
    · have hs : s.schedCount ≤ (if s.exited = true then 1 else 0) := by
        simpa [h1] using sle
      exact le_trans hs (Nat.le_add_right _ _)
  | stopFinishExited c h1 h2 =>
    refine ⟨?_, ?_, ?_, ?_, ?_, ?_, ?_⟩ <;> dsimp only
    · exact mono
    · intro hex
      have hn := (ne hex).2.1
      rw [h2] at hn
      simp at hn
    · intro t ht
      rcases List.mem_cons.mp ht with rfl | ht2
      · have hne2 : s.exitCodeSetAt ≠ none := rok (by simp [h2])
        cases hse : s.exitCodeSetAt with
        | none => exact absurd hse hne2
        | some te => exact ⟨te, rfl, by have := mono te hse; omega⟩
      · exact tok t ht2
    · exact rok
    · exact remok
    · intro hq
      simp at hq
    · have hss := ast h1
      have hs : s.schedCount ≤ (if s.exited = true then 1 else 0) := by
        simpa [h1] using sle
      by_cases he : s.exited = true <;> simp [hss, he] at hs ⊢ <;> omega
  | stopFinishNull h1 h2 =>
    refine ⟨?_, ?_, ?_, ?_, ?_, ?_, ?_⟩ <;> dsimp only
    · exact mono
    · exact ne
    · exact tok
    · exact rok
    · exact remok
    · intro hq
      simp at hq
    · have hs : s.schedCount ≤ (if s.exited = true then 1 else 0) := by
        simpa [h1] using sle
      exact le_trans hs (Nat.le_add_right _ _)
  | fire t h1 h2 =>
    refine ⟨?_, ?_, ?_, ?_, ?_, ?_, ?_⟩ <;> dsimp only
    · exact mono
    · intro hex
      rw [(ne hex).1] at h1
      simp at h1
    · intro t2 ht2
      exact tok t2 (List.mem_of_mem_erase ht2)
    · exact rok
    · intro r hr
      rw [Option.some_inj] at hr
      have hex : s.exited = true := by
        cases hx : s.exited with
        | true => rfl
        | false =>
          rw [(ne hx).1] at h1
          simp at h1
      obtain ⟨te, hte, hle⟩ := tok t h1
      exact ⟨hex, te, hte, by omega⟩
    · exact ast
    · exact sle

theorem inv_reachable {t0 : Nat} {s : TState} (h : Reachable t0 s) : Inv s := by
  induction h with
  | refl => exact inv_init t0
  | tail _ hstep ih => exact inv_step hstep ih

/-! ### Concrete traces -/

/-- After a signal-terminated exit at time 0: `exitCode` was assigned `null`. -/
def sigExitS1 : TState :=
  { time := 0, present := true, exitCode := none, exited := true
    exitCodeSetAt := some 0, timers := [retentionMs], removedAt := none
    stopActive := false, stopStarted := false, stopResolved := none
    schedCount := 1 }

/-- One hour later, the retention timer is due. -/
def sigExitS2 : TState := { sigExitS1 with time := retentionMs }

/-- The timer fired: the record is gone while `exitCode` is still `null`. -/
def sigExitFinal : TState :=
  { time := retentionMs, present := false, exitCode := none, exited := true
    exitCodeSetAt := some 0, timers := [], removedAt := some retentionMs
    stopActive := false, stopStarted := false, stopResolved := none
    schedCount := 1 }

theorem sigExit_trace : Reachable 0 sigExitFinal := by
  have h1 : Step (initState 0) sigExitS1 := Step.exitP (initState 0) none rfl rfl
  have h2 : Step sigExitS1 sigExitS2 := Step.tick sigExitS1 retentionMs
  have h3 : Step sigExitS2 sigExitFinal :=
    Step.fire sigExitS2 retentionMs (List.mem_singleton_self _) (le_refl _)
  exact Relation.ReflTransGen.tail
    (Relation.ReflTransGen.tail (Relation.ReflTransGen.tail Relation.ReflTransGen.refl h1) h2) h3

/-- A stop-server call has passed its checks and sent its signal. -/
def dblTimerS1 : TState :=
  { time := 0, present := true, exitCode := none, exited := false
    exitCodeSetAt := none, timers := [], removedAt := none
    stopActive := true, stopStarted := true, stopResolved := none
    schedCount := 0 }

/-- The exit event fires during the wait: the permanent handler schedules a
removal timer, the stop call's listener is resolved with code 0. -/
def dblTimerS2 : TState :=
  { time := 0, present := true, exitCode := some 0, exited := true
    exitCodeSetAt := some 0, timers := [retentionMs], removedAt := none
    stopActive := true, stopStarted := true, stopResolved := some (some 0)
    schedCount := 1 }

/-- The stop call completes and schedules a second removal timer. -/
def dblTimerFinal : TState :=
  { time := 0, present := true, exitCode := some 0, exited := true
    exitCodeSetAt := some 0, timers := [retentionMs, retentionMs], removedAt := none
    stopActive := false, stopStarted := true, stopResolved := some (some 0)
    schedCount := 2 }

theorem dblTimer_trace : Reachable 0 dblTimerFinal := by
  have h1 : Step (initState 0) dblTimerS1 := Step.stopBegin (initState 0) rfl rfl rfl
  have h2 : Step dblTimerS1 dblTimerS2 := Step.exitP dblTimerS1 (some 0) rfl rfl
  have h3 : Step dblTimerS2 dblTimerFinal := Step.stopFinishExited dblTimerS2 0 rfl rfl
  exact Relation.ReflTransGen.tail
    (Relation.ReflTransGen.tail (Relation.ReflTransGen.tail Relation.ReflTransGen.refl h1) h2) h3

/-! ## Helper lemmas -/

theorem regGet_regSet_self (reg : Registry) (id : String) (v : ServerInfo) :
    regGet (regSet reg id v) id = some v := by
  induction reg with
  | nil => simp [regSet, regGet]
  | cons p t ih =>
    obtain ⟨k, w⟩ := p
    by_cases hk : k = id
    · simp [regSet, hk, regGet]
    · simp [regSet, hk, regGet, ih]

theorem regSet_self {reg : Registry} {id : String} {v : ServerInfo}
    (h : regGet reg id = some v) : regSet reg id v = reg := by
  induction reg with
  | nil => simp [regGet] at h
  | cons p t ih =>
    obtain ⟨k, w⟩ := p
    by_cases hk : k = id
    · subst hk
      simp [regGet] at h
      simp [regSet, h]
    · simp [regGet, hk] at h
      simp [regSet, hk, ih h]

theorem pushLog_lastN (es : List String) (e : String) :
    pushLog (lastN maxLogs es) e = lastN maxLogs (es ++ [e]) := by
  rw [pushLog, lastN, lastN]
  by_cases hlt : es.length < maxLogs
  · rw [if_neg]
    · have h1 : es.length - maxLogs = 0 := by omega
      have h2 : (es ++ [e]).length - maxLogs = 0 := by
        rw [List.length_append]
        simp
        omega
      rw [h1, h2, List.drop_zero, List.drop_zero]
    · rw [List.length_append, List.length_drop]
      simp
      omega
  · push_neg at hlt
    have h0 : 0 < maxLogs := by norm_num [maxLogs]
    rw [if_pos]
    · have hme : (es ++ [e]).length - maxLogs = (es.length - maxLogs) + 1 := by
        rw [List.length_append]
        simp
        omega
      rw [hme, List.drop_append_eq_append_drop]
      have h3 : es.length - maxLogs + 1 - es.length = 0 := by omega
      rw [h3, List.drop_zero]
      have hne : es.drop (es.length - maxLogs) ≠ [] := by
        have hpos : 0 < (es.drop (es.length - maxLogs)).length := by
          rw [List.length_drop]
          omega
        exact List.length_pos.mp hpos
      cases hd : es.drop (es.length - maxLogs) with
      | nil => exact absurd hd hne
      | cons a t =>
        have ht : t = es.drop (es.length - maxLogs + 1) := by
          have htl := List.tail_drop es (es.length - maxLogs)
          rw [hd] at htl
          simpa using htl
        rw [List.cons_append, List.tail_cons, ht]
    · rw [List.length_append, List.length_drop]
      simp
      omega

/-- The buffer built from a sequence of already-formatted entries. -/
def runAppends (entries : List String) : List String := entries.foldl pushLog []

theorem runAppends_eq_lastN (entries : List String) :
    runAppends entries = lastN maxLogs entries := by
  induction entries using List.reverseRecOn with
  | nil => rfl
  | append_singleton es e ih =>
    rw [runAppends, List.foldl_append]
    simp only [List.foldl_cons, List.foldl_nil]
    rw [← runAppends, ih, pushLog_lastN]

theorem runStream_eq (chunks : List (StreamTag × String)) :
    runStream chunks = runAppends (chunks.map formatChunk) := by
  rw [runStream, runAppends, List.foldl_map]
  rfl

theorem jsSliceFrom_neg {α : Type} (l : List α) (n : Nat) (hn : 0 < n) :
    jsSliceFrom l (-(n : Int)) = l.drop (l.length - n) := by
  rw [jsSliceFrom]
  rw [if_pos (by omega : -(n : Int) < 0)]
  have hmax : max ((l.length : Int) + -(n : Int)) 0 = ((l.length - n : Nat) : Int) := by
    rw [max_def]
    split_ifs <;> omega
  rw [hmax]
  simp

/-! ## Claim theorems -/

/-- C1: for every sequence of stdout/stderr data callbacks on a server
record's log buffer with cap 1000, the buffer's length never exceeds 1000
and its contents are exactly the most recent formatted entries in the
order they were appended, the oldest being evicted first once the cap is
reached.  Quantifying over all callback sequences covers the state after
each individual append. -/
theorem c1_log_buffer_cap_fifo (chunks : List (StreamTag × String)) :
    (runStream chunks).length ≤ maxLogs ∧
    runStream chunks = lastN maxLogs (chunks.map formatChunk) := by
  have h := runAppends_eq_lastN (chunks.map formatChunk)
  have hlen : (lastN maxLogs (chunks.map formatChunk)).length ≤ maxLogs := by
    rw [lastN, List.length_drop]
    omega
  rw [runStream_eq, h]
  exact ⟨hlen, rfl⟩

/-- C2 (amended): a record is removed from the registry no sooner than the
1-hour retention delay after the process exit event assigned `exitCode`
(possibly to `null`, for a signal-terminated process), and a record whose
process has not exited is never removed.  The original claim's "a record
whose exitCode is null is never removed" fails: the exit handler schedules
removal unconditionally, see the counterexample. -/
theorem c2_removal_only_after_exit (t0 : Nat) (s : TState) (h : Reachable t0 s)
    (r : Nat) (hr : s.removedAt = some r) :
    s.exited = true ∧ s.exitCodeSetAt ≠ none ∧
      ∀ te, s.exitCodeSetAt = some te → te + retentionMs ≤ r := by
  obtain ⟨hex, te, hte, hle⟩ := (inv_reachable h).removed_ok r hr
  refine ⟨hex, by rw [hte]; simp, ?_⟩
  intro te2 hte2
  rw [hte, Option.some_inj] at hte2
  omega

/-- C2 witness: on the concrete signal-exit trace, the removal happened
after the exit event and no sooner than one hour after `exitCode` was
assigned (at time 0). -/
theorem c2_removal_only_after_exit_witness :
    sigExitFinal.exited = true ∧ 0 + retentionMs ≤ retentionMs := by
  have h := c2_removal_only_after_exit 0 sigExitFinal sigExit_trace retentionMs rfl
  exact ⟨h.1, h.2.2 0 rfl⟩

/-- C2 counterexample: a process that exits via a signal (exit event code
`null`) has its record removed one hour later while `exitCode` is still
`null`, refuting "a record whose exitCode is null is never removed from
the registry". -/
theorem c2_counterexample_removed_while_null :
    Reachable 0 sigExitFinal ∧ sigExitFinal.exitCode = none ∧
      sigExitFinal.removedAt = some retentionMs ∧ sigExitFinal.present = false :=
  ⟨sigExit_trace, rfl, rfl, rfl⟩

/-- C9 (amended): for one stop-server call interleaved with the record's
exit event, at most TWO retention-removal timers are ever scheduled for
the record (the original "at most one" fails, see the counterexample:
both the permanent exit handler and the completing stop call schedule
one; both perform the same idempotent delete). -/
theorem c9_at_most_two_retention_timers (t0 : Nat) (s : TState) (h : Reachable t0 s) :
    s.schedCount ≤ 2 := by
  have hs := (inv_reachable h).sched_le
  by_cases he : s.exited = true <;>
    by_cases hb : (s.stopStarted && !s.stopActive) = true <;>
      simp [he, hb] at hs <;> omega

/-- C9 witness: the double-scheduling trace still satisfies the bound. -/
theorem c9_at_most_two_retention_timers_witness : dblTimerFinal.schedCount ≤ 2 :=
  c9_at_most_two_retention_timers 0 dblTimerFinal dblTimer_trace

/-- C9 counterexample: when the exit event fires during a stop-server
call's wait, the exit handler and the stop-server completion each
schedule a retention-removal timer: two timers are scheduled for the same
record, refuting "at most one retention-removal timer is ever scheduled". -/
theorem c9_counterexample_double_timer :
    Reachable 0 dblTimerFinal ∧ dblTimerFinal.schedCount = 2 ∧
      dblTimerFinal.timers = [retentionMs, retentionMs] :=
  ⟨dblTimer_trace, rfl, rfl⟩

/-- C7: a start-node-server call whose script path does not resolve to an
existing file (the `fs.access` check fails) returns the script-missing
error and leaves the registry unchanged, with the same size. -/
theorem c7_script_missing_no_insert (env : StartEnv) (reg : Registry) (newId : String)
    (nowMs : Nat) (scriptPath : String) (serverName : Option String)
    (nodeArgs args : List String) (h : env.accessOk = false) :
    startNodeServer env reg newId nowMs scriptPath serverName nodeArgs args =
      (.scriptMissing, reg) ∧
    regSize (startNodeServer env reg newId nowMs scriptPath serverName nodeArgs args).2 =
      regSize reg := by
  have h1 : startNodeServer env reg newId nowMs scriptPath serverName nodeArgs args =
      (.scriptMissing, reg) := by
    rw [startNodeServer, if_pos h]
  exact ⟨h1, by rw [h1]⟩

/-- A start environment whose `fs.access` check fails. -/
def startEnvMissing : StartEnv :=
  { accessOk := false, permitted := true, selectedNodeVersion := none
    nvmWhichNode := .ok "/usr/bin/node", spawnResult := .ok { pid := some 4242 } }

/-- C7 witness: concrete missing-script start leaves the empty registry
empty. -/
theorem c7_script_missing_no_insert_witness :
    startNodeServer startEnvMissing [] "server-1" 0 "/tmp/gone.js" none [] [] =
      (.scriptMissing, []) ∧
    regSize (startNodeServer startEnvMissing [] "server-1" 0 "/tmp/gone.js" none [] []).2 =
      regSize [] :=
  c7_script_missing_no_insert startEnvMissing [] "server-1" 0 "/tmp/gone.js" none [] [] rfl

/-- C3 (amended): a start-node-server call in which the interpreter
resolution fails, or the `spawn` call itself throws, returns an error
outcome and never inserts a record: the registry is returned unchanged.
The original claim for every spawn failure fails: an asynchronously
failing spawn (handle without a pid) still inserts a record, see the
counterexample. -/
theorem c3_resolution_or_spawn_throw_no_insert (env : StartEnv) (reg : Registry)
    (newId : String) (nowMs : Nat) (scriptPath : String) (serverName : Option String)
    (nodeArgs args : List String)
    (h : (∃ e, env.spawnResult = .error e) ∨
         ((∃ v, env.selectedNodeVersion = some v) ∧ ∃ e, env.nvmWhichNode = .error e)) :
    (startNodeServer env reg newId nowMs scriptPath serverName nodeArgs args).1.isErr = true ∧
    (startNodeServer env reg newId nowMs scriptPath serverName nodeArgs args).2 = reg := by
  rw [startNodeServer]
  by_cases ha : env.accessOk = false
  · rw [if_pos ha]
    exact ⟨rfl, rfl⟩
  · rw [if_neg ha]
    by_cases hp : env.permitted = false
    · rw [if_pos hp]
      exact ⟨rfl, rfl⟩
    · rw [if_neg hp]
      rcases h with ⟨e, hsp⟩ | ⟨⟨v, hv⟩, e, hnv⟩
      · cases hsv : env.selectedNodeVersion with
        | none => simp [hsv, hsp, StartResult.isErr]
        | some v2 =>
          cases hnv2 : env.nvmWhichNode with
          | error e2 => simp [hsv, hnv2, StartResult.isErr]
          | ok p => simp [hsv, hnv2, hsp, StartResult.isErr]
      · simp [hv, hnv, StartResult.isErr]

/-- A start environment whose nvm interpreter resolution fails. -/
def startEnvNvmFail : StartEnv :=
  { accessOk := true, permitted := true, selectedNodeVersion := some "18"
    nvmWhichNode := .error "nvm: version not found", spawnResult := .ok { pid := some 4242 } }

/-- C3 witness: a concrete failed interpreter resolution yields an error
and an unchanged registry. -/
theorem c3_resolution_or_spawn_throw_no_insert_witness :
    (startNodeServer startEnvNvmFail [] "server-1" 0 "/tmp/app.js" none [] []).1.isErr = true ∧
    (startNodeServer startEnvNvmFail [] "server-1" 0 "/tmp/app.js" none [] []).2 = [] :=
  c3_resolution_or_spawn_throw_no_insert startEnvNvmFail [] "server-1" 0 "/tmp/app.js" none [] []
    (Or.inr ⟨⟨"18", rfl⟩, "nvm: version not found", rfl⟩)

/-- A start environment where `spawn` fails asynchronously: the call
returns a handle with no pid and the failure is only delivered through a
later `error` event, for which the tool installs no listener. -/
def startEnvSpawnAsyncFail : StartEnv :=
  { accessOk := true, permitted := true, selectedNodeVersion := none
    nvmWhichNode := .ok "/usr/bin/node", spawnResult := .ok { pid := none } }

/-- C3 counterexample: when `spawn` fails asynchronously the tool reports
success and inserts a record with pid 0 and `exitCode` null into the
registry, refuting "no record is ever inserted" for every spawn
failure. -/
theorem c3_counterexample_async_spawn_inserts :
    (startNodeServer startEnvSpawnAsyncFail [] "server-1" 0 "/tmp/app.js" none [] []).1 =
      .started "server-1" 0 ∧
    (startNodeServer startEnvSpawnAsyncFail [] "server-1" 0 "/tmp/app.js" none [] []).1.isErr =
      false ∧
    regGet (startNodeServer startEnvSpawnAsyncFail [] "server-1" 0 "/tmp/app.js" none [] []).2
        "server-1" =
      some { name := "app.js", command := "node /tmp/app.js", pid := 0
             startTimeMs := 0, logs := [], exitCode := none } ∧
    regSize (startNodeServer startEnvSpawnAsyncFail [] "server-1" 0 "/tmp/app.js" none [] []).2 =
      1 := by
  refine ⟨?_, ?_, ?_, ?_⟩ <;> rfl

/-- C4: stop-server on a running record that does not exit within the
5-second wait: with `force` unset, escalation is offered through the
permission collaborator; accepted, SIGKILL is sent and "forcibly
terminated" returned (no further wait occurs in the tool body); declined,
"did not exit within timeout, retry with force" is returned, the registry
is unchanged (the record keeps `exitCode` null) and only the one SIGTERM
was sent; with `force` already set, "unresponsive even after forced kill"
is returned, the record remaining in the registry. -/
theorem c4_stop_escalation (env : StopEnv) (reg : Registry) (id : String) (info : ServerInfo)
    (hget : regGet reg id = some info) (hrun : info.exitCode = none)
    (hperm : env.permitted = true) (hnoexit : env.exitWithinTimeout = none) :
    (env.forcePermitted = true →
      stopServerTool env reg id false =
        (.forciblyTerminated, reg, [.sigterm, .sigkill], false)) ∧
    (env.forcePermitted = false →
      stopServerTool env reg id false =
        (.didNotExitRetryWithForce, reg, [.sigterm], false)) ∧
    stopServerTool env reg id true = (.unresponsiveAfterKill, reg, [.sigkill], false) := by
  have hset : regSet reg id info = reg := regSet_self hget
  refine ⟨?_, ?_, ?_⟩
  · intro hfp
    simp [stopServerTool, hget, stopServer, hrun, hperm, hnoexit, hfp, hset]
  · intro hfp
    simp [stopServerTool, hget, stopServer, hrun, hperm, hnoexit, hfp, hset]
  · simp [stopServerTool, hget, stopServer, hrun, hperm, hnoexit, hset]

/-- A record for a live process, and a registry holding it. -/
def runningInfo : ServerInfo :=
  { name := "app.js", command := "node /tmp/app.js", pid := 42
    startTimeMs := 0, logs := [], exitCode := none }

def runningReg : Registry := [("server-1", runningInfo)]

/-- Stop collaborators: permission granted, the process never exits within
the wait, escalation declined. -/
def stopEnvTimeoutDeclined : StopEnv :=
  { permitted := true, exitWithinTimeout := none, forcePermitted := false }

/-- C4 witness: the concrete declined-escalation stop leaves the registry
unchanged after only a SIGTERM. -/
theorem c4_stop_escalation_witness :
    stopServerTool stopEnvTimeoutDeclined runningReg "server-1" false =
      (.didNotExitRetryWithForce, runningReg, [.sigterm], false) :=
  (c4_stop_escalation stopEnvTimeoutDeclined runningReg "server-1" runningInfo
    (by decide) rfl rfl rfl).2.1 rfl

/-- C6: stop-server on a record whose `exitCode` is already non-null
returns the "already exited" outcome, sends no signal, schedules nothing,
and leaves the registry unchanged. -/
theorem c6_stop_already_exited (env : StopEnv) (reg : Registry) (id : String)
    (info : ServerInfo) (c : Int) (force : Bool)
    (hget : regGet reg id = some info) (hexit : info.exitCode = some c) :
    stopServerTool env reg id force = (.alreadyExited c, reg, [], false) := by
  have hset : regSet reg id info = reg := regSet_self hget
  simp [stopServerTool, hget, stopServer, hexit, hset]

/-- A record for a process that already exited with code 0. -/
def exitedInfo : ServerInfo :=
  { name := "app.js", command := "node /tmp/app.js", pid := 42
    startTimeMs := 0, logs := [], exitCode := some 0 }

def exitedReg : Registry := [("server-1", exitedInfo)]

/-- C6 witness: a concrete stop on an exited record, even with force,
sends no signal and changes nothing. -/
theorem c6_stop_already_exited_witness :
    stopServerTool stopEnvTimeoutDeclined exitedReg "server-1" true =
      (.alreadyExited 0, exitedReg, [], false) :=
  c6_stop_already_exited stopEnvTimeoutDeclined exitedReg "server-1" exitedInfo 0 true
    (by decide) rfl

/-- C8 (amended): list-servers with a serverId absent from a NON-empty
registry returns the not-found error; when the registry is empty — with or
without a serverId — the distinguished non-error "no servers" result is
returned.  The original claim that an absent id yields NotFound even on
an empty registry fails, see the counterexample: the size check runs
first. -/
theorem c8_list_servers_lookup (reg : Registry) (id : String)
    (hne : reg ≠ []) (hmiss : regGet reg id = none) :
    listServersTool reg (some id) = .serverNotFound ∧
    (listServersTool reg (some id)).isErr = true ∧
    (∀ sid, listServersTool [] sid = .noServers) := by
  have hlen : ¬ regSize reg = 0 := by
    cases reg with
    | nil => exact absurd rfl hne
    | cons p t => simp [regSize]
  have h1 : listServersTool reg (some id) = .serverNotFound := by
    simp [listServersTool, hlen, hmiss]
  exact ⟨h1, by rw [h1]; rfl, fun sid => rfl⟩

/-- C8 witness: a concrete unknown id on a one-record registry is a
not-found error, and the empty registry gives the "no servers" result. -/
theorem c8_list_servers_lookup_witness :
    listServersTool runningReg (some "server-2") = .serverNotFound ∧
    listServersTool [] (some "server-2") = .noServers := by
  have h := c8_list_servers_lookup runningReg "server-2" (by decide) (by decide)
  exact ⟨h.1, h.2.2 (some "server-2")⟩

/-- C8 counterexample: on an empty registry, a detail query for an absent
id returns the non-error "no servers" result, not the NotFound outcome
the claim requires. -/
theorem c8_counterexample_empty_registry :
    listServersTool [] (some "server-x") = .noServers ∧
    listServersTool [] (some "server-x") ≠ .serverNotFound ∧
    (listServersTool [] (some "server-x")).isErr = false := by
  decide

/-- The record of the spec's concrete log-query scenario. -/
def logsInfoExample : ServerInfo :=
  { name := "srv.js", command := "node /tmp/srv.js", pid := 7
    startTimeMs := 0
    logs := ["[stdout] ok", "[stderr] Error: bad", "[stderr] fine"]
    exitCode := none }

/-- C5: get-server-logs first filters the record's buffer by the
stdout/stderr selectors and the case-insensitive substring filter, then
takes the last `lines` entries of the filtered sequence in original order
(so the result is a suffix of the filtered sequence of length
`min lines filtered.length`); the spec's concrete example returns exactly
the one stderr entry containing "Error: bad"; and an empty filtered
result produces the non-error "no logs" response. -/
theorem c5_get_server_logs_filter_then_slice (reg : Registry) (id : String)
    (info : ServerInfo) (lines : Nat) (filter : Option String) (so se : Bool)
    (hget : regGet reg id = some info) (hl : 0 < lines) :
    getServerLogsList info.logs lines filter so se =
      lastN lines (info.logs.filter (logMatches so se filter)) ∧
    getServerLogsList info.logs lines filter so se <:+
      info.logs.filter (logMatches so se filter) ∧
    (getServerLogsList info.logs lines filter so se).length =
      min lines (info.logs.filter (logMatches so se filter)).length ∧
    (info.logs.filter (logMatches so se filter) ≠ [] →
      getServerLogsTool reg id lines filter so se =
        .shown (getServerLogsList info.logs lines filter so se)) ∧
    (info.logs.filter (logMatches so se filter) = [] →
      getServerLogsTool reg id lines filter so se = .noLogs ∧
      (getServerLogsTool reg id lines filter so se).isErr = false) ∧
    getServerLogsTool [("srv", logsInfoExample)] "srv" 10 (some "error") false true =
      .shown ["[stderr] Error: bad"] := by
  have h1 : getServerLogsList info.logs lines filter so se =
      lastN lines (info.logs.filter (logMatches so se filter)) := by
    rw [getServerLogsList, jsSliceFrom_neg _ _ hl, lastN]
  have hlen : (getServerLogsList info.logs lines filter so se).length =
      min lines (info.logs.filter (logMatches so se filter)).length := by
    rw [h1, lastN, List.length_drop, Nat.min_def]
    split_ifs <;> omega
  refine ⟨h1, ?_, hlen, ?_, ?_, ?_⟩
  · rw [h1, lastN]
    exact List.drop_suffix _ _
  · intro hne
    have hpos : 0 < (info.logs.filter (logMatches so se filter)).length :=
      List.length_pos.mpr hne
    have hfne : getServerLogsList info.logs lines filter so se ≠ [] := by
      have : 0 < (getServerLogsList info.logs lines filter so se).length := by
        rw [hlen, Nat.min_def]
        split_ifs <;> omega
      exact List.length_pos.mp this
    cases hfl : getServerLogsList info.logs lines filter so se with
    | nil => exact absurd hfl hfne
    | cons a t => simp [getServerLogsTool, hget, hfl]
  · intro he
    have hfl : getServerLogsList info.logs lines filter so se = [] := by
      rw [h1, he, lastN]
      simp
    constructor
    · simp [getServerLogsTool, hget, hfl]
    · simp [getServerLogsTool, hget, hfl, LogsResult.isErr]
  · decide

/-- C5 witness: the spec's concrete scenario, through the general theorem:
logs `[stdout: ok, stderr: Error: bad, stderr: fine]` with
`filter="error"`, `stdout=false`, `lines=10` yield exactly the one entry
`[stderr] Error: bad`. -/
theorem c5_get_server_logs_filter_then_slice_witness :
    getServerLogsTool [("srv", logsInfoExample)] "srv" 10 (some "error") false true =
      .shown ["[stderr] Error: bad"] :=
  (c5_get_server_logs_filter_then_slice [("srv", logsInfoExample)] "srv" logsInfoExample
    10 (some "error") false true (by decide) (by decide)).2.2.2.2.2

/-- C10: with `lines = 0`, `slice(-0)` is `slice(0)` and keeps the whole
sequence, so get-server-logs returns every entry of the non-empty
filtered buffer rather than zero entries. -/
theorem c10_lines_zero_returns_all (reg : Registry) (id : String) (info : ServerInfo)
    (filter : Option String) (so se : Bool)
    (hget : regGet reg id = some info)
    (hne : info.logs.filter (logMatches so se filter) ≠ []) :
    getServerLogsList info.logs 0 filter so se =
      info.logs.filter (logMatches so se filter) ∧
    getServerLogsTool reg id 0 filter so se =
      .shown (info.logs.filter (logMatches so se filter)) := by
  have h1 : getServerLogsList info.logs 0 filter so se =
      info.logs.filter (logMatches so se filter) := by
    rw [getServerLogsList, jsSliceFrom]
    simp
  refine ⟨h1, ?_⟩
  cases hfl : info.logs.filter (logMatches so se filter) with
  | nil => exact absurd hfl hne
  | cons a t => simp [getServerLogsTool, hget, h1, hfl]

/-- C10 witness: with `lines = 0` and no filters, all three buffered
entries of the concrete record are returned. -/
theorem c10_lines_zero_returns_all_witness :
    getServerLogsTool [("srv", logsInfoExample)] "srv" 0 none true true =
      .shown ["[stdout] ok", "[stderr] Error: bad", "[stderr] fine"] := by
  have h := c10_lines_zero_returns_all [("srv", logsInfoExample)] "srv" logsInfoExample
    none true true (by decide) (by decide)
  rw [h.2]
  decide

end McpNode
